import Mathlib

/-!
Verification of the Sentinel-2 land-cover analysis pipeline.

Rasters read from single-band files are modelled as rectangular lists of
lists of rationals (the sources upcast bands to floating point before any
division; we model the exact real arithmetic with `ℚ`).  Pixels that may be
not-a-number are modelled as `Option ℚ` with `none` standing for NaN.
NumPy's 2-D elementwise operations broadcast a dimension of size 1 against
any other size; `broadcast2` reproduces these semantics, returning `none`
where NumPy would raise a broadcasting error.  Unsigned 8-bit stores are
modelled with an explicit `% 256`.
-/

/-- A single-band raster: rows of pixel values. -/
abbrev Grid (α : Type) := List (List α)

/-- Pixel read with a fallback default (only used within bounds in theorems). -/
def bget {α : Type} (G : Grid α) (d : α) (i j : ℕ) : α :=
  (G.getD i []).getD j d

/-- The (rows, cols) shape NumPy reports for a 2-D array, cols taken from the
first row. -/
def gridShape {α : Type} (G : Grid α) : ℕ × ℕ :=
  (G.length, (G.headD []).length)

/-- `G` is a rectangular grid with `h` rows and `w` columns. -/
def Rect {α : Type} (h w : ℕ) (G : Grid α) : Prop :=
  G.length = h ∧ ∀ row ∈ G, row.length = w

instance {α : Type} (h w : ℕ) (G : Grid α) : Decidable (Rect h w G) :=
  decidable_of_iff (G.length = h ∧ ∀ row ∈ G, row.length = w) Iff.rfl

/-- The broadcast result size of one dimension (size 1 stretches to the
other operand's size). -/
def bdim (m n : ℕ) : ℕ := if m = 1 then n else m

/-- NumPy-style broadcasting of a binary pixelwise operation over two 2-D
arrays.  A dimension is compatible when the sizes agree or one of them is 1;
incompatible shapes produce `none` (NumPy raises a `ValueError`). -/
def broadcast2 {α β : Type} (f : α → α → β) (dA dB : α) (A B : Grid α) :
    Option (Grid β) :=
  let r₁ := A.length
  let r₂ := B.length
  let c₁ := (A.headD []).length
  let c₂ := (B.headD []).length
  if (r₁ = r₂ ∨ r₁ = 1 ∨ r₂ = 1) ∧ (c₁ = c₂ ∨ c₁ = 1 ∨ c₂ = 1) then
    some ((List.range (bdim r₁ r₂)).map fun i =>
      (List.range (bdim c₁ c₂)).map fun j =>
        f (bget A dA (if r₁ = 1 then 0 else i) (if c₁ = 1 then 0 else j))
          (bget B dB (if r₂ = 1 then 0 else i) (if c₂ = 1 then 0 else j)))
  else
    none

lemma getD_pos {α : Type} (l : List α) (d : α) (i : ℕ) (h : i < l.length) :
    l.getD i d = l[i] := by
  simp [List.getD, List.getElem?_eq_getElem h]

lemma getD_range_map {α : Type} (f : ℕ → α) (r i : ℕ) (d : α) (h : i < r) :
    ((List.range r).map f).getD i d = f i := by
  rw [getD_pos ((List.range r).map f) d i (by simpa using h)]
  simp

lemma headD_length_of_rect {α : Type} {h c : ℕ} {G : Grid α}
    (hG : Rect h c G) (hh : h ≠ 0) : (G.headD []).length = c := by
  rcases G with _ | ⟨a, as⟩
  · exact absurd hG.1.symm hh
  · exact hG.2 a (List.mem_cons_self a as)

lemma bdim_self (n : ℕ) : bdim n n = n := by
  unfold bdim; split <;> rfl

lemma bsel (m k : ℕ) (hk : k < m) : (if m = 1 then 0 else k) = k := by
  by_cases hm : m = 1
  · subst hm; simp; omega
  · simp [hm]

lemma getD_row_length {α : Type} {h c : ℕ} {G : Grid α} (hG : Rect h c G)
    (i : ℕ) (hi : i < h) : (G.getD i []).length = c := by
  have hi' : i < G.length := by rw [hG.1]; exact hi
  rw [getD_pos G [] i hi']
  exact hG.2 _ (List.getElem_mem hi')

lemma gridShape_eq_of_rect {α β : Type} {h c : ℕ} {G : Grid α} {G' : Grid β}
    (hG : Rect h c G) (hG' : Rect h c G') : gridShape G = gridShape G' := by
  unfold gridShape
  rcases Nat.eq_zero_or_pos h with h0 | hpos
  · subst h0
    rw [List.length_eq_zero.mp hG.1, List.length_eq_zero.mp hG'.1]
    rfl
  · rw [hG.1, hG'.1, headD_length_of_rect hG (by omega),
      headD_length_of_rect hG' (by omega)]

/-- Reading one pixel of a pixelwise-mapped grid. -/
lemma bget_gridMap {α β : Type} (f : α → β) (G : Grid α) (d : α) (d' : β)
    (i j : ℕ) (hi : i < G.length) (hj : j < (G.getD i []).length) :
    bget (G.map (List.map f)) d' i j = f (bget G d i j) := by
  have hji : j < (G[i]).length := by rwa [getD_pos G [] i hi] at hj
  unfold bget
  rw [getD_pos G [] i hi, getD_pos (G.map (List.map f)) [] i (by simpa using hi),
    List.getElem_map, getD_pos _ d j hji,
    getD_pos (List.map f G[i]) d' j (by simpa using hji), List.getElem_map]

/-- Broadcasting two equal-shape rectangular grids succeeds and is the plain
pointwise operation. -/
lemma broadcast2_rect {α β : Type} (f : α → α → β) (dA dB : α) (h c : ℕ)
    (A B : Grid α) (hA : Rect h c A) (hB : Rect h c B) :
    ∃ C, broadcast2 f dA dB A B = some C ∧ Rect h c C ∧
      ∀ (d : β) (i j : ℕ), i < h → j < c →
        bget C d i j = f (bget A dA i j) (bget B dB i j) := by
  rcases Nat.eq_zero_or_pos h with h0 | hpos
  · subst h0
    have hA' : A = [] := List.length_eq_zero.mp hA.1
    have hB' : B = [] := List.length_eq_zero.mp hB.1
    subst hA'; subst hB'
    refine ⟨[], ?_, ⟨rfl, by simp⟩, ?_⟩
    · simp [broadcast2, bdim]
    · intro d i j hi _; exact absurd hi (Nat.not_lt_zero i)
  · have hcA : (A.headD []).length = c := headD_length_of_rect hA (by omega)
    have hcB : (B.headD []).length = c := headD_length_of_rect hB (by omega)
    refine ⟨(List.range h).map (fun i => (List.range c).map fun j =>
      f (bget A dA (if h = 1 then 0 else i) (if c = 1 then 0 else j))
        (bget B dB (if h = 1 then 0 else i) (if c = 1 then 0 else j))),
      ?_, ?_, ?_⟩
    · simp only [broadcast2]
      rw [hA.1, hB.1, hcA, hcB, bdim_self, bdim_self,
        if_pos (⟨Or.inl rfl, Or.inl rfl⟩ :
          (h = h ∨ h = 1 ∨ h = 1) ∧ (c = c ∨ c = 1 ∨ c = 1))]
    · constructor
      · simp
      · intro row hrow
        simp only [List.mem_map] at hrow
        obtain ⟨i, _, rfl⟩ := hrow
        simp
    · intro d i j hi hj
      unfold bget
      rw [getD_range_map _ _ _ _ hi, getD_range_map _ _ _ _ hj,
        bsel h i hi, bsel c j hj]

/-- Broadcasting an `h×c` grid against a `1×c` grid succeeds and replicates
the single row of the second operand (NumPy's implicit stretch). -/
lemma broadcast2_rect_row {α β : Type} (f : α → α → β) (dA dB : α) (h c : ℕ)
    (A B : Grid α) (hA : Rect h c A) (hB : Rect 1 c B)
    (hh0 : h ≠ 0) (hh1 : h ≠ 1) :
    ∃ C, broadcast2 f dA dB A B = some C ∧ Rect h c C ∧
      ∀ (d : β) (i j : ℕ), i < h → j < c →
        bget C d i j = f (bget A dA i j) (bget B dB 0 j) := by
  have hcA : (A.headD []).length = c := headD_length_of_rect hA hh0
  have hcB : (B.headD []).length = c := headD_length_of_rect hB (by omega)
  have hb1 : bdim h 1 = h := by unfold bdim; rw [if_neg hh1]
  refine ⟨(List.range h).map (fun i => (List.range c).map fun j =>
    f (bget A dA (if h = 1 then 0 else i) (if c = 1 then 0 else j))
      (bget B dB 0 (if c = 1 then 0 else j))),
    ?_, ?_, ?_⟩
  · simp only [broadcast2]
    rw [hA.1, hB.1, hcA, hcB, hb1, bdim_self,
      if_pos (⟨Or.inr (Or.inr rfl), Or.inl rfl⟩ :
        (h = 1 ∨ h = 1 ∨ (1 : ℕ) = 1) ∧ (c = c ∨ c = 1 ∨ c = 1))]
    simp
  · constructor
    · simp
    · intro row hrow
      simp only [List.mem_map] at hrow
      obtain ⟨i, _, rfl⟩ := hrow
      simp
  · intro d i j hi hj
    unfold bget
    rw [getD_range_map _ _ _ _ hi, getD_range_map _ _ _ _ hj,
      bsel h i hi, bsel c j hj]

/-!
## Spectral index calculator (`src/calculate_ndvi.py`, `src/urban_extraction.py`)
-/

/-- Per-pixel normalized difference, from
`np.where((a + b) != 0, (a - b) / (a + b), 0)`
(`calculate_ndvi.py` line 31, applied with `a = nir`, `b = red`). -/
def normalizedDiff (a b : ℚ) : ℚ :=
  if a + b ≠ 0 then (a - b) / (a + b) else 0

/-- Grid-level NDVI from `calculate_ndvi.py`: bands are upcast to floating
point, then the normalized difference is taken with NumPy elementwise
semantics. -/
def calculate_ndvi (red nir : Grid ℚ) : Option (Grid ℚ) :=
  broadcast2 normalizedDiff 0 0 nir red

/-- Per-pixel body of `calculate_built_up_index` (`urban_extraction.py`
lines 54-61): returns `(bui, ndvi, ndbi)` exactly as the source does. -/
def calculate_built_up_index_pixel (red nir swir : ℚ) : ℚ × ℚ × ℚ :=
  let ndvi := if nir + red ≠ 0 then (nir - red) / (nir + red) else 0
  let ndbi := if swir + nir ≠ 0 then (swir - nir) / (swir + nir) else 0
  (ndbi - ndvi, ndvi, ndbi)

/-- C1: the normalized-difference index equals `(a - b) / (a + b)` whenever
`a + b ≠ 0` and is exactly `0` when `a + b = 0`; the same zero-substitution
rule holds for each normalized-difference component (NDVI and NDBI) of the
composite built-up index, and at grid level the equal-shape NDVI output is
the pointwise safe normalized difference (so no pixel is NaN because of a
zero denominator). -/
theorem c1_safe_division (a b red nir swir : ℚ) :
    (a + b ≠ 0 → normalizedDiff a b = (a - b) / (a + b)) ∧
    (a + b = 0 → normalizedDiff a b = 0) ∧
    ((calculate_built_up_index_pixel red nir swir).2.1 = normalizedDiff nir red) ∧
    ((calculate_built_up_index_pixel red nir swir).2.2 = normalizedDiff swir nir) ∧
    ((calculate_built_up_index_pixel red nir swir).1 =
      normalizedDiff swir nir - normalizedDiff nir red) ∧
    (nir + red = 0 → (calculate_built_up_index_pixel red nir swir).2.1 = 0) ∧
    (swir + nir = 0 → (calculate_built_up_index_pixel red nir swir).2.2 = 0) ∧
    (∀ (h c : ℕ) (R N : Grid ℚ), Rect h c R → Rect h c N →
      ∃ G, calculate_ndvi R N = some G ∧
        ∀ i j : ℕ, i < h → j < c →
          bget G 0 i j = normalizedDiff (bget N 0 i j) (bget R 0 i j)) := by
  refine ⟨?_, ?_, ?_, ?_, ?_, ?_, ?_, ?_⟩
  · intro h; simp [normalizedDiff, h]
  · intro h; simp [normalizedDiff, h]
  · rfl
  · rfl
  · rfl
  · intro h; simp [calculate_built_up_index_pixel, h]
  · intro h; simp [calculate_built_up_index_pixel, h]
  · intro h c R N hR hN
    obtain ⟨G, hG, _, hget⟩ := broadcast2_rect normalizedDiff 0 0 h c N R hN hR
    exact ⟨G, hG, fun i j hi hj => hget 0 i j hi hj⟩

/-- Witness for C1 at concrete pixels: a regular division and a
zero-denominator NDVI component of the built-up index. -/
theorem c1_witness :
    normalizedDiff 3 1 = (3 - 1) / (3 + 1) ∧
    (calculate_built_up_index_pixel 1 (-1) 0).2.1 = 0 := by
  have h := c1_safe_division 3 1 1 (-1) 0
  exact ⟨h.1 (by norm_num), h.2.2.2.2.2.1 (by norm_num)⟩

/-- C8: for nonnegative band values the normalized-difference index lies in
`[-1, 1]`. -/
theorem c8_index_bounded (a b : ℚ) (ha : 0 ≤ a) (hb : 0 ≤ b) :
    -1 ≤ normalizedDiff a b ∧ normalizedDiff a b ≤ 1 := by
  unfold normalizedDiff
  split_ifs with h
  · have hs : 0 < a + b := lt_of_le_of_ne (by positivity) (Ne.symm h)
    constructor
    · rw [le_div_iff₀ hs]; linarith
    · rw [div_le_one hs]; linarith
  · norm_num

/-- Witness for C8 at a concrete nonnegative band pair. -/
theorem c8_witness : -1 ≤ normalizedDiff 3 1 ∧ normalizedDiff 3 1 ≤ 1 :=
  c8_index_bounded 3 1 (by norm_num) (by norm_num)

/-!
## Change detector (`src/change_detection.py`)
-/

/-- `calculate_ndvi_difference` (`change_detection.py` lines 16-39):
`ndvi_diff = ndvi_2025 - ndvi_2021`, a plain NumPy elementwise subtraction.
The source performs no shape check of its own, so mismatched shapes follow
NumPy broadcasting. -/
def calculate_ndvi_difference (ndvi2021 ndvi2025 : Grid ℚ) : Option (Grid ℚ) :=
  broadcast2 (fun x y => x - y) 0 0 ndvi2025 ndvi2021

/-- Per-pixel result of `classify_changes` (`change_detection.py` lines
41-59).  The source assigns into a zero-initialized `uint8` array with three
masks in sequence (decrease, increase, no-change), so the last matching mask
wins and a pixel matching no mask keeps 0. -/
def classify_changes_pixel (diff threshold : ℚ) : ℕ :=
  if -threshold ≤ diff ∧ diff ≤ threshold then 3
  else if threshold < diff then 2
  else if diff < -threshold then 1
  else 0

/-- `classify_changes` over a whole difference raster. -/
def classify_changes (ndvi_diff : Grid ℚ) (threshold : ℚ) : Grid ℕ :=
  ndvi_diff.map (List.map fun d => classify_changes_pixel d threshold)

/-- `compare_classifications` (`change_detection.py` lines 61-87): a
zero-initialized array shaped like the first input receives 1 under the
boolean mask `class_2021 != class_2025`.  NumPy broadcasts the inequality;
the masked assignment then requires the mask shape to equal the first
input's shape (an `IndexError`, modelled as `none`, otherwise).  No
`ShapeMismatchError` is raised anywhere in the source. -/
def compare_classifications (class2021 class2025 : Grid ℕ) : Option (Grid ℕ) :=
  (broadcast2 (fun a b => a != b) 0 0 class2021 class2025).bind fun M =>
    if gridShape M = gridShape class2021 then
      some (M.map (List.map fun t => if t then 1 else 0))
    else none

/-- Nodata sentinel written with the NDVI output
(`calculate_ndvi.py` line 34). -/
def ndvi_nodata : ℚ := -9999

/-- Nodata sentinel written with the classification change matrix
(`change_detection.py` line 82). -/
def classification_changes_nodata : ℕ := 0

/-- C2: for a nonnegative threshold τ, change classification maps a pixel
with difference `< -τ` to decrease (1), `> τ` to increase (2), and every
pixel with `-τ ≤ diff ≤ τ` — in particular the exact boundaries `diff = ±τ`
— to no-change (3). -/
theorem c2_change_classification (τ : ℚ) (hτ : 0 ≤ τ) (D : Grid ℚ) (i j : ℕ)
    (hi : i < D.length) (hj : j < (D.getD i []).length) :
    (bget D 0 i j < -τ → bget (classify_changes D τ) 0 i j = 1) ∧
    (τ < bget D 0 i j → bget (classify_changes D τ) 0 i j = 2) ∧
    (-τ ≤ bget D 0 i j → bget D 0 i j ≤ τ →
      bget (classify_changes D τ) 0 i j = 3) ∧
    ((bget D 0 i j = τ ∨ bget D 0 i j = -τ) →
      bget (classify_changes D τ) 0 i j = 3) := by
  have hmap : bget (classify_changes D τ) 0 i j
      = classify_changes_pixel (bget D 0 i j) τ :=
    bget_gridMap (fun d => classify_changes_pixel d τ) D 0 0 i j hi hj
  rw [hmap]
  set x := bget D 0 i j with hx
  unfold classify_changes_pixel
  refine ⟨?_, ?_, ?_, ?_⟩
  · intro h
    rw [if_neg (by rintro ⟨h1, _⟩; linarith), if_neg (by intro h2; linarith),
      if_pos h]
  · intro h
    rw [if_neg (by rintro ⟨_, h2⟩; linarith), if_pos h]
  · intro h1 h2
    rw [if_pos ⟨h1, h2⟩]
  · rintro (h | h)
    · rw [if_pos ⟨by rw [h]; linarith, le_of_eq h⟩]
    · rw [if_pos ⟨ge_of_eq h, by rw [h]; linarith⟩]

/-- Witness for C2: the default threshold 1/10 with a pixel exactly on the
boundary is classified no-change. -/
theorem c2_witness :
    bget (classify_changes [[(1 : ℚ)/10]] (1/10)) 0 0 0 = 3 := by
  have h := c2_change_classification (1/10) (by norm_num) [[(1 : ℚ)/10]] 0 0
    (by decide) (by decide)
  exact h.2.2.2 (Or.inl rfl)

/-- C6: every pixel of the change-classification output is one of the three
categorical values decrease (1), increase (2), no-change (3). -/
theorem c6_change_values (D : Grid ℚ) (τ : ℚ) :
    ∀ row ∈ classify_changes D τ, ∀ v ∈ row, v = 1 ∨ v = 2 ∨ v = 3 := by
  intro row hrow v hv
  simp only [classify_changes, List.mem_map] at hrow
  obtain ⟨r, _, rfl⟩ := hrow
  simp only [List.mem_map] at hv
  obtain ⟨d, _, rfl⟩ := hv
  unfold classify_changes_pixel
  split_ifs with h1 h2 h3
  · exact Or.inr (Or.inr rfl)
  · exact Or.inr (Or.inl rfl)
  · exact Or.inl rfl
  · exfalso
    push_neg at h1 h2 h3
    linarith [h1 h3]

/-- Witness for C6 on a concrete one-pixel raster. -/
theorem c6_witness : (3 : ℕ) = 1 ∨ (3 : ℕ) = 2 ∨ (3 : ℕ) = 3 :=
  c6_change_values [[(0 : ℚ)]] 1 [3] (by decide) 3 (by decide)

/-- C5: for equal-shape label maps the transition matrix is the pointwise
numeric-inequality indicator (1 where labels differ, 0 elsewhere), and the
spec's concrete scenario holds. -/
theorem c5_transition_comparison (h c : ℕ) (A B : Grid ℕ)
    (hA : Rect h c A) (hB : Rect h c B) :
    (∃ C, compare_classifications A B = some C ∧ Rect h c C ∧
      ∀ i j : ℕ, i < h → j < c →
        bget C 0 i j = if bget A 0 i j ≠ bget B 0 i j then 1 else 0) ∧
    compare_classifications [[1, 1], [2, 2]] [[1, 2], [2, 2]]
      = some [[0, 1], [0, 0]] := by
  constructor
  · obtain ⟨M, hM, hMr, hMget⟩ :=
      broadcast2_rect (fun a b => a != b) 0 0 h c A B hA hB
    refine ⟨M.map (List.map fun t => if t then 1 else 0), ?_, ?_, ?_⟩
    · simp only [compare_classifications, hM, Option.some_bind]
      rw [if_pos (gridShape_eq_of_rect hMr hA)]
    · constructor
      · rw [List.length_map]; exact hMr.1
      · intro row hrow
        simp only [List.mem_map] at hrow
        obtain ⟨r, hrm, rfl⟩ := hrow
        rw [List.length_map]; exact hMr.2 r hrm
    · intro i j hi hj
      have hji : j < (M.getD i []).length := by
        rw [getD_row_length hMr i hi]; exact hj
      have hbg := bget_gridMap (fun t : Bool => if t then (1 : ℕ) else 0)
        M false 0 i j (by rw [hMr.1]; exact hi) hji
      rw [hbg, hMget false i j hi hj]
      simp [bne_iff_ne]
  · decide

/-- Witness for C5: the spec's scenario extracted through the theorem. -/
theorem c5_witness :
    compare_classifications [[1, 1], [2, 2]] [[1, 2], [2, 2]]
      = some [[0, 1], [0, 0]] :=
  (c5_transition_comparison 2 2 [[1, 1], [2, 2]] [[1, 2], [2, 2]]
    (by decide) (by decide)).2

/-- C4 counterexample: on shape-mismatched inputs neither change-detector
operation fails — NumPy broadcasting silently stretches the one-row operand.
A 1×2 earlier NDVI raster against a 2×2 later one yields a 2×2 difference,
and a 2×2 label map against a 1×2 one yields a 2×2 transition matrix. -/
theorem c4_counterexample :
    gridShape [[(0 : ℚ), 0]] ≠ gridShape [[(1 : ℚ), 2], [3, 4]] ∧
    calculate_ndvi_difference [[(0 : ℚ), 0]] [[(1 : ℚ), 2], [3, 4]]
      = some [[1, 2], [3, 4]] ∧
    gridShape [[1, 2], [1, 2]] ≠ gridShape ([[1, 3]] : Grid ℕ) ∧
    compare_classifications [[1, 2], [1, 2]] [[1, 3]]
      = some [[0, 1], [0, 1]] := by
  refine ⟨by decide, ?_, by decide, by decide⟩
  simp [calculate_ndvi_difference, broadcast2, bget, bdim, List.range_succ]

/-- C4 amended: the two change-detector operations perform no shape check
and raise no `ShapeMismatchError`.  With an `h×c` grid (h ≥ 2) against a
`1×c` grid both succeed, implicitly replicating the single row: the index
difference subtracts the broadcast row pointwise and the transition
comparison marks inequality against the broadcast row. -/
theorem c4_no_shape_error (h c : ℕ) (A B : Grid ℚ) (A' B' : Grid ℕ)
    (hA : Rect h c A) (hB : Rect 1 c B) (hA' : Rect h c A') (hB' : Rect 1 c B')
    (hh0 : h ≠ 0) (hh1 : h ≠ 1) :
    gridShape A ≠ gridShape B ∧
    (∃ D, calculate_ndvi_difference B A = some D ∧ Rect h c D ∧
      ∀ i j : ℕ, i < h → j < c →
        bget D 0 i j = bget A 0 i j - bget B 0 0 j) ∧
    (∃ C, compare_classifications A' B' = some C ∧ Rect h c C ∧
      ∀ i j : ℕ, i < h → j < c →
        bget C 0 i j = if bget A' 0 i j ≠ bget B' 0 0 j then 1 else 0) := by
  refine ⟨?_, ?_, ?_⟩
  · intro heq
    have := congrArg Prod.fst heq
    simp only [gridShape, hA.1, hB.1] at this
    exact hh1 this
  · obtain ⟨D, hD, hDr, hDget⟩ :=
      broadcast2_rect_row (fun x y => x - y) 0 0 h c A B hA hB hh0 hh1
    exact ⟨D, hD, hDr, fun i j hi hj => hDget 0 i j hi hj⟩
  · obtain ⟨M, hM, hMr, hMget⟩ :=
      broadcast2_rect_row (fun a b => a != b) 0 0 h c A' B' hA' hB' hh0 hh1
    refine ⟨M.map (List.map fun t => if t then 1 else 0), ?_, ?_, ?_⟩
    · simp only [compare_classifications, hM, Option.some_bind]
      rw [if_pos (gridShape_eq_of_rect hMr hA')]
    · constructor
      · rw [List.length_map]; exact hMr.1
      · intro row hrow
        simp only [List.mem_map] at hrow
        obtain ⟨r, hrm, rfl⟩ := hrow
        rw [List.length_map]; exact hMr.2 r hrm
    · intro i j hi hj
      have hji : j < (M.getD i []).length := by
        rw [getD_row_length hMr i hi]; exact hj
      have hbg := bget_gridMap (fun t : Bool => if t then (1 : ℕ) else 0)
        M false 0 i j (by rw [hMr.1]; exact hi) hji
      rw [hbg, hMget false i j hi hj]
      simp [bne_iff_ne]

/-- Witness for C4's amended statement at the concrete mismatched pair. -/
theorem c4_witness :
    gridShape ([[(1 : ℚ), 2], [3, 4]] : Grid ℚ)
      ≠ gridShape ([[(0 : ℚ), 0]] : Grid ℚ) :=
  (c4_no_shape_error 2 2 [[(1 : ℚ), 2], [3, 4]] [[(0 : ℚ), 0]]
    [[1, 2], [1, 2]] [[1, 3]] (by decide) (by decide) (by decide) (by decide)
    (by decide) (by decide)).1

/-- C9 counterexample: the transition matrix is written with nodata sentinel
0 (`change_detection.py` line 82), yet 0 is itself the valid "same class"
output value — comparing two identical one-pixel maps produces exactly the
sentinel, so the sentinel does not lie outside the valid value set {0, 1}. -/
theorem c9_counterexample :
    compare_classifications [[1]] [[1]] = some [[classification_changes_nodata]] ∧
    classification_changes_nodata = 0 := by decide

/-- C9 amended: the NDVI output's nodata sentinel −9999 does lie outside the
valid index range [−1, 1], but the transition matrix's sentinel 0 lies inside
its valid categorical value set {0, 1}. -/
theorem c9_nodata_amended :
    ndvi_nodata ∉ Set.Icc (-1 : ℚ) 1 ∧
    classification_changes_nodata ∈ ({0, 1} : Set ℕ) := by
  constructor
  · simp only [Set.mem_Icc, not_and_or, not_le]
    left
    norm_num [ndvi_nodata]
  · simp [classification_changes_nodata]

/-!
## Windowed sampler (`src/land_cover_classification.py` lines 28-39)
-/

/-- Window bounds computed inside `prepare_classification_data`: the window
is centered at `(height // 2, width // 2)` with half size
`window_size // 2`, clamped to the grid.  Python's `max(center - half, 0)`
coincides with truncated ℕ subtraction; `min(center + half, size)` is taken
literally.  Returns `(y1, y2, x1, x2)`. -/
def prepare_window (height width window_size : ℕ) : ℕ × ℕ × ℕ × ℕ :=
  let center_y := height / 2
  let center_x := width / 2
  let half_win := window_size / 2
  (center_y - half_win, min (center_y + half_win) height,
   center_x - half_win, min (center_x + half_win) width)

/-- The extracted window's (rows, cols) = `(y2 - y1, x2 - x1)`. -/
def window_shape (height width window_size : ℕ) : ℕ × ℕ :=
  ((prepare_window height width window_size).2.1
      - (prepare_window height width window_size).1,
   (prepare_window height width window_size).2.2.2
      - (prepare_window height width window_size).2.2.1)

/-- C7 counterexample: a requested window of size 5 fits entirely inside a
10×10 grid, yet the extracted window is 4×4 (`2 * (window_size // 2)` rows
and columns), not 5×5 as the claim requires. -/
theorem c7_counterexample :
    (5 ≤ 10 ∧ window_shape 10 10 5 = (4, 4)) ∧
    window_shape 10 10 5 ≠ (5, 5) := by decide

/-- C7 amended: the sampler always produces clamped, in-range bounds
(`y1 ≤ y2 ≤ height` and `x1 ≤ x2 ≤ width`, never an error), and the window
centered at the grid midpoint measures exactly `window_size` per axis when
`window_size` is even and fits in both dimensions; an odd requested size
that fits yields `window_size - 1` per axis instead. -/
theorem c7_window_amended (h w s : ℕ) (hs : s % 2 = 0)
    (hsh : s ≤ h) (hsw : s ≤ w) :
    window_shape h w s = (s, s) ∧
    (∀ h' w' s' : ℕ,
      (prepare_window h' w' s').1 ≤ (prepare_window h' w' s').2.1 ∧
      (prepare_window h' w' s').2.1 ≤ h' ∧
      (prepare_window h' w' s').2.2.1 ≤ (prepare_window h' w' s').2.2.2 ∧
      (prepare_window h' w' s').2.2.2 ≤ w') ∧
    (∀ s' : ℕ, s' % 2 = 1 → s' ≤ h → s' ≤ w →
      window_shape h w s' = (s' - 1, s' - 1)) := by
  refine ⟨?_, ?_, ?_⟩
  · simp only [window_shape, prepare_window, Prod.mk.injEq]
    constructor <;> omega
  · intro h' w' s'
    simp only [prepare_window]
    refine ⟨?_, ?_, ?_, ?_⟩ <;> omega
  · intro s' hodd hsh' hsw'
    simp only [window_shape, prepare_window, Prod.mk.injEq]
    constructor <;> omega

/-- Witness for C7's amended statement: an even window size 4 on a 10×10
grid gives an exact 4×4 window. -/
theorem c7_witness : window_shape 10 10 4 = (4, 4) :=
  (c7_window_amended 10 10 4 (by decide) (by decide) (by decide)).1

/-!
## Classifier validity filter and label map
   (`src/land_cover_classification.py` lines 48-57 and 75-94)
-/

/-- One pixel's band values; `none` models a not-a-number reading. -/
abbrev PixelVector := List (Option ℚ)

/-- Validity filter of `prepare_classification_data` (line 53):
`np.any(np.isnan(v) | (v == 0))` over one pixel's bands.  A NaN compares
unequal to 0 but is caught by `isnan`. -/
def is_invalid_pixel (v : PixelVector) : Bool :=
  v.any fun x =>
    match x with
    | none => true
    | some q => q == 0

/-- `valid_pixels = ~np.any(..., axis=1)` over the flattened pixel list. -/
def valid_pixels (pixels : List PixelVector) : List Bool :=
  pixels.map fun v => !is_invalid_pixel v

/-- Scatter step of `create_classification_map` (lines 82-83):
`full_map = np.zeros(..., dtype=np.uint8); full_map[valid_pixels] = labels + 1`.
The store is an unsigned 8-bit array, hence `% 256`; a length mismatch
between `labels` and the valid-pixel count is a NumPy error (`none`). -/
def scatter_labels : List Bool → List ℕ → Option (List ℕ)
  | [], [] => some []
  | [], _ :: _ => none
  | false :: vs, ls => (scatter_labels vs ls).map fun m => 0 :: m
  | true :: _, [] => none
  | true :: vs, l :: ls => (scatter_labels vs ls).map fun m => (l + 1) % 256 :: m

/-- `create_classification_map` with the source's argument order. -/
def create_classification_map (labels : List ℕ) (valid : List Bool) :
    Option (List ℕ) :=
  scatter_labels valid labels

lemma scatter_labels_spec (vs : List Bool) (ls : List ℕ) (m : List ℕ)
    (hm : scatter_labels vs ls = some m) :
    m.length = vs.length ∧
    ∀ i : ℕ, i < vs.length →
      (vs.getD i false = false → m.getD i 0 = 0) ∧
      (vs.getD i false = true →
        m.getD i 0 = (ls.getD ((vs.take i).count true) 0 + 1) % 256 ∧
        (vs.take i).count true < ls.length) := by
  induction vs generalizing ls m with
  | nil =>
    cases ls with
    | nil =>
      simp only [scatter_labels, Option.some.injEq] at hm
      subst hm
      exact ⟨rfl, fun i hi => absurd hi (by simp)⟩
    | cons l ls => simp [scatter_labels] at hm
  | cons b vs ih =>
    cases b with
    | false =>
      simp only [scatter_labels] at hm
      cases hsc : scatter_labels vs ls with
      | none => rw [hsc] at hm; simp at hm
      | some m' =>
        rw [hsc] at hm
        simp only [Option.map_some', Option.some.injEq] at hm
        obtain ⟨hlen, hspec⟩ := ih ls m' hsc
        subst hm
        refine ⟨by simp [hlen], ?_⟩
        intro i hi
        cases i with
        | zero =>
          exact ⟨fun _ => rfl, fun hc => by simp at hc⟩
        | succ n =>
          have hn : n < vs.length := by simpa using hi
          have hsp := hspec n hn
          refine ⟨?_, ?_⟩
          · intro hfalse
            simp only [List.getD_cons_succ] at hfalse ⊢
            exact hsp.1 hfalse
          · intro htrue
            simp only [List.getD_cons_succ] at htrue ⊢
            have h2 := hsp.2 htrue
            simpa [List.take_succ_cons, List.count_cons] using h2
    | true =>
      cases ls with
      | nil => simp [scatter_labels] at hm
      | cons l ls =>
        simp only [scatter_labels] at hm
        cases hsc : scatter_labels vs ls with
        | none => rw [hsc] at hm; simp at hm
        | some m' =>
          rw [hsc] at hm
          simp only [Option.map_some', Option.some.injEq] at hm
          obtain ⟨hlen, hspec⟩ := ih ls m' hsc
          subst hm
          refine ⟨by simp [hlen], ?_⟩
          intro i hi
          cases i with
          | zero =>
            refine ⟨fun hc => by simp at hc, fun _ => ?_⟩
            exact ⟨by simp, by simp⟩
          | succ n =>
            have hn : n < vs.length := by simpa using hi
            have hsp := hspec n hn
            refine ⟨?_, ?_⟩
            · intro hfalse
              simp only [List.getD_cons_succ] at hfalse ⊢
              exact hsp.1 hfalse
            · intro htrue
              simp only [List.getD_cons_succ] at htrue ⊢
              have h2 := hsp.2 htrue
              constructor
              · simpa [List.take_succ_cons, List.count_cons] using h2.1
              · have h3 := h2.2
                simp [List.take_succ_cons, List.count_cons]
                omega

/-- C3 counterexample: labels live in a uint8 array, so with cluster count
N = 256 a valid pixel whose 0-indexed cluster id is 255 receives
`(255 + 1) % 256 = 0` — the label of a valid pixel collides with the invalid
marker 0, refuting the claimed equivalence for arbitrary N. -/
theorem c3_counterexample :
    valid_pixels [[some (1 : ℚ)]] = [true] ∧ 255 < 256 ∧
    create_classification_map [255] (valid_pixels [[some (1 : ℚ)]])
      = some [0] := by decide

/-- C3 amended: provided the cluster count N is at most 255 (so that the
uint8 store `labels + 1` cannot wrap), a pixel's label in the produced map
is 0 exactly when some band value at that pixel is zero or NaN, and each
valid pixel's label is its 0-indexed cluster id (the next unconsumed entry
of `labels`) plus 1, hence lies in 1..N. -/
theorem c3_label_map (pixels : List PixelVector) (labels : List ℕ) (N : ℕ)
    (hN : N ≤ 255) (hl : ∀ l ∈ labels, l < N) (m : List ℕ)
    (hm : create_classification_map labels (valid_pixels pixels) = some m)
    (i : ℕ) (hi : i < pixels.length) :
    (m.getD i 0 = 0 ↔ is_invalid_pixel (pixels.getD i []) = true) ∧
    (is_invalid_pixel (pixels.getD i []) = false →
      m.getD i 0
        = labels.getD (((valid_pixels pixels).take i).count true) 0 + 1 ∧
      1 ≤ m.getD i 0 ∧ m.getD i 0 ≤ N) := by
  have hv : (valid_pixels pixels).length = pixels.length := by
    simp [valid_pixels]
  have hi' : i < (valid_pixels pixels).length := by rw [hv]; exact hi
  have hgv : (valid_pixels pixels).getD i false
      = !is_invalid_pixel (pixels.getD i []) := by
    rw [getD_pos (valid_pixels pixels) false i hi', getD_pos pixels [] i hi]
    simp [valid_pixels]
  obtain ⟨hlen, hs⟩ := scatter_labels_spec (valid_pixels pixels) labels m hm
  have hsi := hs i hi'
  by_cases hinv : is_invalid_pixel (pixels.getD i []) = true
  · have hfalse : (valid_pixels pixels).getD i false = false := by
      rw [hgv, hinv]; rfl
    have hm0 := hsi.1 hfalse
    refine ⟨⟨fun _ => hinv, fun _ => hm0⟩, ?_⟩
    intro hcontra
    rw [hcontra] at hinv
    exact Bool.noConfusion hinv
  · have hfv : is_invalid_pixel (pixels.getD i []) = false := by
      cases hb : is_invalid_pixel (pixels.getD i []) with
      | false => rfl
      | true => exact absurd hb hinv
    have hvt : (valid_pixels pixels).getD i false = true := by
      rw [hgv, hfv]; rfl
    obtain ⟨hval, hbound⟩ := hsi.2 hvt
    have hlk : labels.getD (((valid_pixels pixels).take i).count true) 0 < N := by
      apply hl
      rw [getD_pos labels 0 _ hbound]
      exact List.getElem_mem hbound
    have hmod : (labels.getD (((valid_pixels pixels).take i).count true) 0 + 1) % 256
        = labels.getD (((valid_pixels pixels).take i).count true) 0 + 1 :=
      Nat.mod_eq_of_lt (by omega)
    rw [hval, hmod]
    refine ⟨⟨fun h0 => absurd h0 (by omega), fun ht => absurd ht hinv⟩, ?_⟩
    intro _
    exact ⟨rfl, by omega, by omega⟩

/-- Witness for C3's amended statement: two one-band pixels, the first valid
(value 1, cluster id 0 → label 1), the second invalid (value 0 → label 0). -/
theorem c3_witness :
    (([1, 0] : List ℕ).getD 0 0 = 0 ↔
      is_invalid_pixel ([[some (1 : ℚ)], [some 0]].getD 0 []) = true) ∧
    (is_invalid_pixel ([[some (1 : ℚ)], [some 0]].getD 0 []) = false →
      ([1, 0] : List ℕ).getD 0 0
        = [0].getD
            (((valid_pixels [[some (1 : ℚ)], [some 0]]).take 0).count true) 0
          + 1 ∧
      1 ≤ ([1, 0] : List ℕ).getD 0 0 ∧ ([1, 0] : List ℕ).getD 0 0 ≤ 1) :=
  c3_label_map [[some (1 : ℚ)], [some 0]] [0] 1 (by decide) (by decide)
    [1, 0] (by decide) 0 (by decide)

/-!
## Unsupervised classification (`src/land_cover_classification.py` lines 59-73)

`perform_classification` standardizes the valid pixel vectors
(`StandardScaler().fit_transform`) and clusters them
(`KMeans(n_clusters=n_clusters, random_state=42, n_init=10).fit_predict`,
scikit-learn's default iteration cap 300).  The bodies of `StandardScaler`
and `KMeans` live in scikit-learn, not in this repository, so they are
modelled from the spec (§4.4): standardize to zero mean / unit variance from
the valid subset, then iterative Euclidean clustering with a fixed iteration
cap, seeded randomized restarts, and the lowest-inertia solution retained.
-/

/-- Modelled from the spec: a deterministic rational square-root
approximation standing in for the numeric square root used by
standardization (the spec fixes no rounding, only determinism). -/
def ratSqrt (q : ℚ) : ℚ :=
  (Nat.sqrt (q.num.toNat * q.den) : ℚ) / (q.den : ℚ)

/-- Modelled from the spec: per-band mean over the valid subset. -/
def colMean (xs : List ℚ) : ℚ := xs.sum / (xs.length : ℚ)

/-- Modelled from the spec: per-band population variance. -/
def colVar (xs : List ℚ) : ℚ :=
  ((xs.map fun x => (x - colMean xs) ^ 2).sum) / (xs.length : ℚ)

/-- Modelled from the spec: per-band scale, 1 for a constant band (as
scikit-learn substitutes for a zero standard deviation). -/
def colScale (xs : List ℚ) : ℚ :=
  if colVar xs = 0 then 1 else ratSqrt (colVar xs)

/-- Modelled from the spec: standardize each feature column to zero mean and
unit variance using statistics of the data itself. -/
def standardize (data : List (List ℚ)) : List (List ℚ) :=
  let cols := data.transpose
  let ms := cols.map colMean
  let ss := cols.map colScale
  data.map fun row => (row.zip (ms.zip ss)).map fun p => (p.1 - p.2.1) / p.2.2

/-- Modelled from the spec: a deterministic pseudo-random step (linear
congruential) driven only by the seed. -/
def lcgNext (s : ℕ) : ℕ := (1103515245 * s + 12345) % 2147483648

/-- Squared Euclidean distance between two feature vectors. -/
def sqDist (u v : List ℚ) : ℚ := ((u.zip v).map fun p => (p.1 - p.2) ^ 2).sum

/-- Index of the nearest centroid (first wins ties, like `np.argmin`). -/
def nearestCentroid (cs : List (List ℚ)) (v : List ℚ) : ℕ :=
  cs.enum.foldl
    (fun best p => if sqDist p.2 v < sqDist (cs.getD best []) v then p.1 else best)
    0

/-- Modelled from the spec: recompute one centroid as the mean of its
assigned points (an empty cluster keeps its old centroid). -/
def updateCentroid (data : List (List ℚ)) (assign : List ℕ) (k : ℕ)
    (old : List ℚ) : List ℚ :=
  let pts := ((data.zip assign).filter fun p => p.2 == k).map Prod.fst
  if pts.isEmpty then old
  else pts.transpose.map fun col => col.sum / (col.length : ℚ)

/-- Modelled from the spec: one Lloyd iteration — assign every point to its
nearest centroid, then recompute all centroids. -/
def lloydStep (data : List (List ℚ)) (cs : List (List ℚ)) : List (List ℚ) :=
  let assign := data.map (nearestCentroid cs)
  (List.range cs.length).map fun k => updateCentroid data assign k (cs.getD k [])

/-- Modelled from the spec: iterate Lloyd steps up to a fixed cap. -/
def lloydIter (data : List (List ℚ)) : ℕ → List (List ℚ) → List (List ℚ)
  | 0, cs => cs
  | n + 1, cs => lloydIter data n (lloydStep data cs)

/-- Modelled from the spec: seed-driven choice of initial centroids. -/
def initCentroids (data : List (List ℚ)) (k seed : ℕ) : List (List ℚ) :=
  ((List.range k).foldl
    (fun acc _ =>
      let s := lcgNext acc.2
      (acc.1 ++ [data.getD (s % max data.length 1) []], s))
    (([] : List (List ℚ)), seed)).1

/-- Total within-cluster sum of squared distances. -/
def inertia (data cs : List (List ℚ)) : ℚ :=
  (data.map fun v => sqDist (cs.getD (nearestCentroid cs v) []) v).sum

/-- Modelled from the spec: one full clustering run from one seed. -/
def kmeansSingle (data : List (List ℚ)) (k fuel seed : ℕ) : List (List ℚ) :=
  lloydIter data fuel (initCentroids data k seed)

/-- Modelled from the spec: `n_init` seeded restarts, retaining the
lowest-inertia centroid set, then one 0-indexed cluster id per point. -/
def kmeans (data : List (List ℚ)) (k n_init fuel seed : ℕ) : List ℕ :=
  let runs := (List.range n_init).map fun r => kmeansSingle data k fuel (seed + r)
  let best := runs.foldl
    (fun b cs => if inertia data cs < inertia data b then cs else b)
    (runs.headD [])
  data.map (nearestCentroid best)

/-- `perform_classification` (`land_cover_classification.py` lines 59-73):
standardize, then K-means with `n_init=10`, iteration cap 300, and the
caller's fixed seed (`random_state=42` at the call site). -/
def perform_classification (data : List (List ℚ)) (n_clusters seed : ℕ) :
    List ℕ :=
  kmeans (standardize data) n_clusters 10 300 seed

/-- C10: the classification stage is a pure function of exactly
(pixel data, cluster count, seed) — it consults no other state — so two runs
on identical inputs produce bit-identical label vectors. -/
theorem c10_determinism (d₁ d₂ : List (List ℚ)) (n₁ n₂ s₁ s₂ : ℕ)
    (hd : d₁ = d₂) (hn : n₁ = n₂) (hs : s₁ = s₂) :
    perform_classification d₁ n₁ s₁ = perform_classification d₂ n₂ s₂ := by
  rw [hd, hn, hs]

/-- Witness for C10 at a concrete (data, N, seed) triple. -/
theorem c10_witness :
    perform_classification [[0], [10]] 2 42
      = perform_classification [[0], [10]] 2 42 :=
  c10_determinism [[0], [10]] [[0], [10]] 2 2 42 42 rfl rfl rfl
